import Mathlib

/-
  Verification of the software 3D rendering pipeline (Vec2/Vec3/Vec4, Color,
  Mat4, Mesh, Camera, Framebuffer, 2D rasterizer, Renderer3D) against its
  natural-language specification.

  Embedding conventions:
  * C++ `float` values are modelled as exact rationals (ℚ).  The only float
    operations the verified properties depend on are comparisons and field
    arithmetic, which ℚ models exactly.  Library calls that have no rational
    counterpart (std::sqrt, std::tan, std::asin, std::atan2) are passed in as
    explicit function parameters (`sqrtF`, `tanF`, ...); theorems that need a
    property of such a function state it as an explicit hypothesis.
  * C++ `int` is modelled as ℤ and `uint8_t` channels as ℕ (no arithmetic in
    the verified paths can overflow either type).
  * `static_cast<uint8_t>(f)` / `static_cast<int>(f)` on a float truncate
    toward zero; `ratTrunc` / `Rat.floor` (on non-negative values) model this.
  * The pixel and depth arrays of the framebuffer are modelled as total functions
    from the linear row-major index, updated pointwise.
-/

namespace RenderingEngine

/-! Section: Vec2 (src/Vec2.h) -/

/-- Planar 2D float vector, from src/Vec2.h. -/
structure Vec2 where
  x : ℚ
  y : ℚ
deriving DecidableEq

instance : Add Vec2 := ⟨fun a b => ⟨a.x + b.x, a.y + b.y⟩⟩

instance : Sub Vec2 := ⟨fun a b => ⟨a.x - b.x, a.y - b.y⟩⟩

/-- Models `Vec2::cross`: 2D cross product, a scalar (`x*other.y - y*other.x`). -/
def Vec2.cross (a b : Vec2) : ℚ := a.x * b.y - a.y * b.x

/-! Section: Vec3 (src/Vec3.h) -/

/-- Spatial 3D float vector, from src/Vec3.h. -/
structure Vec3 where
  x : ℚ
  y : ℚ
  z : ℚ
deriving DecidableEq

instance : Add Vec3 := ⟨fun a b => ⟨a.x + b.x, a.y + b.y, a.z + b.z⟩⟩

instance : Sub Vec3 := ⟨fun a b => ⟨a.x - b.x, a.y - b.y, a.z - b.z⟩⟩

instance : Neg Vec3 := ⟨fun a => ⟨-a.x, -a.y, -a.z⟩⟩

/-- Models `Vec3::operator*(float)`: scale every component. -/
def Vec3.scale (v : Vec3) (s : ℚ) : Vec3 := ⟨v.x * s, v.y * s, v.z * s⟩

/-- Models `Vec3::dot`. -/
def Vec3.dot (a b : Vec3) : ℚ := a.x * b.x + a.y * b.y + a.z * b.z

/-- Models `Vec3::cross`. -/
def Vec3.cross (a b : Vec3) : Vec3 :=
  ⟨a.y * b.z - a.z * b.y, a.z * b.x - a.x * b.z, a.x * b.y - a.y * b.x⟩

/-- Models `Vec3::lengthSquared` (`x*x + y*y + z*z`). -/
def Vec3.lengthSquared (v : Vec3) : ℚ := v.x * v.x + v.y * v.y + v.z * v.z

/-- Models `Vec3::length` = `std::sqrt(lengthSquared)`, with the float square root
supplied as `sqrtF`. -/
def Vec3.lengthWith (sqrtF : ℚ → ℚ) (v : Vec3) : ℚ := sqrtF v.lengthSquared

/-- Models `Vec3::normalized`: `if (len == 0.0f) return Vec3(0,0,0); return *this / len`. -/
def Vec3.normalizedWith (sqrtF : ℚ → ℚ) (v : Vec3) : Vec3 :=
  let len := v.lengthWith sqrtF
  if len = 0 then ⟨0, 0, 0⟩ else ⟨v.x / len, v.y / len, v.z / len⟩

/-! Section: Vec4 (src/Vec4.h) -/

/-- Homogeneous 4D float vector, from src/Vec4.h. -/
structure Vec4 where
  x : ℚ
  y : ℚ
  z : ℚ
  w : ℚ
deriving DecidableEq

/-- Models `Vec4::xyz`: drop the w component. -/
def Vec4.xyz (v : Vec4) : Vec3 := ⟨v.x, v.y, v.z⟩

/-- Models `Vec4::toVec3`: guarded perspective divide
(`if (w == 0.0f) return Vec3(x, y, z); return Vec3(x/w, y/w, z/w)`). -/
def Vec4.toVec3 (v : Vec4) : Vec3 :=
  if v.w = 0 then ⟨v.x, v.y, v.z⟩ else ⟨v.x / v.w, v.y / v.w, v.z / v.w⟩

/-- Models `Vec4(const Vec3&, w)` with `w = 1` (a position). -/
def Vec4.ofPoint (v : Vec3) : Vec4 := ⟨v.x, v.y, v.z, 1⟩

/-! Section: Color (src/Color.h) -/

/-- RGBA color, four `uint8_t` channels, from src/Color.h. -/
structure Color where
  r : ℕ
  g : ℕ
  b : ℕ
  a : ℕ
deriving DecidableEq

/-- Models `Color::BLACK` (opaque black, the default). -/
def Color.BLACK : Color := ⟨0, 0, 0, 255⟩

/-- Models `Color::WHITE`. -/
def Color.WHITE : Color := ⟨255, 255, 255, 255⟩

/-- Models `static_cast<uint8_t>` applied to a non-negative float value in `[0,255]`:
truncation toward zero, i.e. the floor. -/
def ratFloorNat (q : ℚ) : ℕ := (⌊q⌋).toNat

/-- Models `Color::blend(fg, bg)` from src/Color.h:
`alpha = fg.a / 255.0f; invAlpha = 1 - alpha;` each channel is
`static_cast<uint8_t>(fg.c * alpha + bg.c * invAlpha)` and the result alpha
is the literal `255`. -/
def Color.blend (fg bg : Color) : Color :=
  let alpha : ℚ := (fg.a : ℚ) / 255
  let invAlpha : ℚ := 1 - alpha
  ⟨ratFloorNat ((fg.r : ℚ) * alpha + (bg.r : ℚ) * invAlpha),
   ratFloorNat ((fg.g : ℚ) * alpha + (bg.g : ℚ) * invAlpha),
   ratFloorNat ((fg.b : ℚ) * alpha + (bg.b : ℚ) * invAlpha),
   255⟩

/-! Section: Mat4 (src/Mat4.h)

Column-major 4×4 float matrix: entry at column `j`, row `i` lives at linear
offset `j*4 + i`.  Modelled as a total function from the linear offset. -/

/-- Matrix of 16 floats in column-major layout, from src/Mat4.h. -/
structure Mat4 where
  e : ℕ → ℚ

/-- Models `Mat4::identity()` (also the default constructor). -/
def Mat4.identity : Mat4 :=
  ⟨fun idx => if idx = 0 ∨ idx = 5 ∨ idx = 10 ∨ idx = 15 then 1 else 0⟩

/-- Models `Mat4::operator*(const Mat4&)`: result column `j`, row `i` is
`Σ_k m[k*4+i] * other.m[j*4+k]`. -/
def Mat4.mul (a b : Mat4) : Mat4 :=
  ⟨fun idx =>
    let j := idx / 4
    let i := idx % 4
    (List.range 4).foldl (fun s k => s + a.e (k * 4 + i) * b.e (j * 4 + k)) 0⟩

/-- Models `Mat4::operator*(const Vec4&)`: rows of `m` dotted with `v`. -/
def Mat4.mulVec4 (m : Mat4) (v : Vec4) : Vec4 :=
  ⟨m.e 0 * v.x + m.e 4 * v.y + m.e 8 * v.z + m.e 12 * v.w,
   m.e 1 * v.x + m.e 5 * v.y + m.e 9 * v.z + m.e 13 * v.w,
   m.e 2 * v.x + m.e 6 * v.y + m.e 10 * v.z + m.e 14 * v.w,
   m.e 3 * v.x + m.e 7 * v.y + m.e 11 * v.z + m.e 15 * v.w⟩

/-- Models `Mat4::transformDirection`: multiply with `w = 0`, drop `w` (no divide). -/
def Mat4.transformDirection (m : Mat4) (v : Vec3) : Vec3 :=
  (m.mulVec4 ⟨v.x, v.y, v.z, 0⟩).xyz

/-- Models `Mat4::lookAt(eye, target, up)` from src/Mat4.h; `sqrtF` is the float
square root used inside `Vec3::normalized`.  Entries not assigned by the C++
code keep their identity-constructor values (`m3 = m7 = m11 = 0`, `m15 = 1`). -/
def Mat4.lookAt (sqrtF : ℚ → ℚ) (eye target up : Vec3) : Mat4 :=
  let forward := Vec3.normalizedWith sqrtF (target - eye)
  let right := Vec3.normalizedWith sqrtF (forward.cross up)
  let cameraUp := right.cross forward
  ⟨fun idx =>
    if idx = 0 then right.x else if idx = 4 then right.y
    else if idx = 8 then right.z
    else if idx = 1 then cameraUp.x else if idx = 5 then cameraUp.y
    else if idx = 9 then cameraUp.z
    else if idx = 2 then -forward.x else if idx = 6 then -forward.y
    else if idx = 10 then -forward.z
    else if idx = 12 then -(right.dot eye) else if idx = 13 then -(cameraUp.dot eye)
    else if idx = 14 then forward.dot eye
    else if idx = 15 then 1 else 0⟩

/-- Models `Mat4::perspective(fovY, aspect, near, far)` from src/Mat4.h; `tanF` is
the float tangent.  All entries the C++ `memset` zeroes stay 0. -/
def Mat4.perspective (tanF : ℚ → ℚ) (fovYRadians aspect near far : ℚ) : Mat4 :=
  let tanHalfFov := tanF (fovYRadians / 2)
  ⟨fun idx =>
    if idx = 0 then 1 / (aspect * tanHalfFov)
    else if idx = 5 then 1 / tanHalfFov
    else if idx = 10 then -(far + near) / (far - near)
    else if idx = 11 then -1
    else if idx = 14 then -(2 * far * near) / (far - near)
    else 0⟩

/-! Section: Framebuffer (src/Framebuffer.h)

`pixels` and `depthBuffer` are row-major arrays indexed by `y*width + x`;
modelled as total functions from the linear index. -/

/-- Color + depth buffer pair, from src/Framebuffer.h. -/
structure Framebuffer where
  width : ℤ
  height : ℤ
  pixels : ℤ → Color
  depthBuffer : ℤ → ℚ

/-- Models `Framebuffer::setPixel`: silently ignore out-of-bounds, else overwrite the
color at `y*width + x` (the depth buffer is untouched). -/
def Framebuffer.setPixel (fb : Framebuffer) (x y : ℤ) (color : Color) : Framebuffer :=
  if x < 0 ∨ fb.width ≤ x ∨ y < 0 ∨ fb.height ≤ y then fb
  else { fb with pixels := fun i => if i = y * fb.width + x then color else fb.pixels i }

/-- Models `Framebuffer::getPixel`: out-of-bounds reads return `Color::BLACK`. -/
def Framebuffer.getPixel (fb : Framebuffer) (x y : ℤ) : Color :=
  if x < 0 ∨ fb.width ≤ x ∨ y < 0 ∨ fb.height ≤ y then Color.BLACK
  else fb.pixels (y * fb.width + x)

/-- Models `Framebuffer::setPixelDepth(x, y, depth, color)`: out-of-bounds returns
false with no write; otherwise write color and depth at `y*width + x` and
return true exactly when `depth < depthBuffer[index]` (strict). -/
def Framebuffer.setPixelDepth (fb : Framebuffer) (x y : ℤ) (depth : ℚ)
    (color : Color) : Framebuffer × Bool :=
  if x < 0 ∨ fb.width ≤ x ∨ y < 0 ∨ fb.height ≤ y then (fb, false)
  else
    let index := y * fb.width + x
    if depth < fb.depthBuffer index then
      ({ fb with
          pixels := fun i => if i = index then color else fb.pixels i,
          depthBuffer := fun i => if i = index then depth else fb.depthBuffer i },
       true)
    else (fb, false)

/-! Section: Mesh (src/Mesh.h) -/

/-- Vertex with position, normal, color, from src/Mesh.h.  The default vertex
has normal `(0,1,0)` and white color. -/
structure Vertex where
  position : Vec3
  normal : Vec3
  color : Color
deriving DecidableEq

/-- Models `Vertex()` default constructor. -/
def Vertex.defaultVertex : Vertex := ⟨⟨0, 0, 0⟩, ⟨0, 1, 0⟩, Color.WHITE⟩

/-- Indexed triangle mesh, from src/Mesh.h: vertices plus indices grouped in
triples. -/
structure Mesh where
  vertices : List Vertex
  indices : List ℕ
deriving DecidableEq

/-- Models `Mesh::getTriangleCount` = `indices.size() / 3`. -/
def Mesh.getTriangleCount (m : Mesh) : ℕ := m.indices.length / 3

/-- Models `Mesh::getTriangle(i)`: the three vertices indexed by the `i`-th index
triple (C++ indexes the vectors unchecked; in-range behaviour is modelled by
`getD` with defaults that no in-range call can observe). -/
def Mesh.getTriangle (m : Mesh) (i : ℕ) : Vertex × Vertex × Vertex :=
  let idx := i * 3
  (m.vertices.getD (m.indices.getD idx 0) Vertex.defaultVertex,
   m.vertices.getD (m.indices.getD (idx + 1) 0) Vertex.defaultVertex,
   m.vertices.getD (m.indices.getD (idx + 2) 0) Vertex.defaultVertex)

/-- Helper of the spec-modelled `makeDoubleSided`: each index triple
`a, b, c` is re-emitted as `a+n, c+n, b+n` (offset by the original vertex
count, last two indices swapped = reversed winding); a trailing fragment of
fewer than three indices is left as-is. -/
def flipWindingTriples (n : ℕ) : List ℕ → List ℕ
  | a :: b :: c :: rest => (a + n) :: (c + n) :: (b + n) :: flipWindingTriples n rest
  | rest => rest

/-- Modelled from the spec: the definition of `Mesh::makeDoubleSided` is not
among the provided sources — only its call sites (src/main.cpp lines 57-59)
are.  Spec §3: "A mesh may be converted in place to a double-sided variant:
vertices are duplicated with inverted normals, and the duplicated index
triples are emitted with reversed winding (swap last two indices)", and §8:
on an N-vertex, M-index mesh the result has exactly 2N vertices and 2M
indices, the indices of the second half offset by N. -/
def Mesh.makeDoubleSided (m : Mesh) : Mesh :=
  let n := m.vertices.length
  { vertices := m.vertices ++ m.vertices.map (fun v => { v with normal := -v.normal }),
    indices := m.indices ++ flipWindingTriples n m.indices }

/-! Section: 2D rasterizer (src/Renderer.h) -/

/-- Models `static_cast<int>` on a float: truncation toward zero. -/
def ratTrunc (q : ℚ) : ℤ := if 0 ≤ q then ⌊q⌋ else ⌈q⌉

/-- The integer interval `[a, b]` as a list (empty when `b < a`), used to
model C++ `for (v = a; v <= b; v++)` loops. -/
def intRange (a b : ℤ) : List ℤ := (List.range (b + 1 - a).toNat).map (fun i => a + i)

/-- Body of the Bresenham loop from `Renderer::drawLine`.  The C++ `while(true)`
loop is modelled with explicit fuel; `drawLine` passes `dx + dy + 1` fuel,
which bounds the iteration count (every iteration either hits the endpoint or
advances `x0` or `y0` one step toward it). -/
def drawLineAux (color : Color) (x1 y1 sx sy dx dy : ℤ) :
    ℕ → ℤ → ℤ → ℤ → Framebuffer → Framebuffer
  | 0, _, _, _, fb => fb
  | fuel + 1, x0, y0, err, fb =>
    let fb1 := fb.setPixel x0 y0 color
    if x0 = x1 ∧ y0 = y1 then fb1
    else
      let e2 := 2 * err
      let err1 := if -dy < e2 then err - dy else err
      let x0' := if -dy < e2 then x0 + sx else x0
      let err2 := if e2 < dx then err1 + dx else err1
      let y0' := if e2 < dx then y0 + sy else y0
      drawLineAux color x1 y1 sx sy dx dy fuel x0' y0' err2 fb1

/-- Models `Renderer::drawLine(x0, y0, x1, y1, color)`: integer Bresenham with error
term `dx - dy`. -/
def drawLine (fb : Framebuffer) (x0 y0 x1 y1 : ℤ) (color : Color) : Framebuffer :=
  let dx : ℤ := |x1 - x0|
  let dy : ℤ := |y1 - y0|
  let sx : ℤ := if x0 < x1 then 1 else -1
  let sy : ℤ := if y0 < y1 then 1 else -1
  drawLineAux color x1 y1 sx sy dx dy (dx + dy + 1).toNat x0 y0 (dx - dy) fb

/-- Models `Renderer::drawLine(const Vec2&, const Vec2&, color)`: coordinates are
`static_cast<int>`-truncated. -/
def drawLineV (fb : Framebuffer) (p0 p1 : Vec2) (color : Color) : Framebuffer :=
  drawLine fb (ratTrunc p0.x) (ratTrunc p0.y) (ratTrunc p1.x) (ratTrunc p1.y) color

/-- Float division, recording a zero denominator as `none`: `a / b` in the
C++ source is an IEEE division, which is not defined as a real-number
operation when `b = 0`. -/
def divChecked (a b : ℚ) : Option ℚ := if b = 0 then none else some (a / b)

/-- Models `Renderer::isPointInTriangle(p, v0, v1, v2)` from src/Renderer.h:
`d00 = (v1-v0) × (v2-v0); d01 = (v1-v0) × (p-v0); d02 = (p-v0) × (v2-v0);
w1 = d02/d00; w2 = d01/d00; w0 = 1 - w1 - w2; return w0 ≥ 0 ∧ w1 ≥ 0 ∧ w2 ≥ 0`.
The code divides by `d00` unconditionally; a zero `d00` (zero-area triangle)
is surfaced as `none`. -/
def isPointInTriangle (p v0 v1 v2 : Vec2) : Option Bool :=
  let d00 := (v1 - v0).cross (v2 - v0)
  let d01 := (v1 - v0).cross (p - v0)
  let d02 := (p - v0).cross (v2 - v0)
  match divChecked d02 d00, divChecked d01 d00 with
  | some w1, some w2 =>
      some (decide (0 ≤ 1 - w1 - w2) && decide (0 ≤ w1) && decide (0 ≤ w2))
  | _, _ => none

/-- Models `Renderer::fillFlatBottomTriangle`: bounding-box scan; a pixel is drawn
when the inside test yields `some true` (for a zero-area triangle the IEEE
inf/NaN weights of the C++ test fail every `≥ 0` comparison, so `none` draws
nothing). -/
def fillFlatBottomTriangle (fb : Framebuffer) (v0 v1 v2 : Vec2) (color : Color) :
    Framebuffer :=
  let minX := ratTrunc (min (min v0.x v1.x) v2.x)
  let maxX := ratTrunc (max (max v0.x v1.x) v2.x)
  let minY := ratTrunc (min (min v0.y v1.y) v2.y)
  let maxY := ratTrunc (max (max v0.y v1.y) v2.y)
  (intRange minY maxY).foldl (fun fbY (y : ℤ) =>
    (intRange minX maxX).foldl (fun fbX (x : ℤ) =>
      let p : Vec2 := ⟨(x : ℚ), (y : ℚ)⟩
      if isPointInTriangle p v0 v1 v2 = some true then fbX.setPixel x y color
      else fbX) fbY) fb

/-- Models `Renderer::drawTriangle(v0, v1, v2, color)`: sort the vertices by `y`
(three conditional swaps) and fill. -/
def drawTriangle (fb : Framebuffer) (v0 v1 v2 : Vec2) (color : Color) : Framebuffer :=
  let (v0, v1) := if v1.y < v0.y then (v1, v0) else (v0, v1)
  let (v0, v2) := if v2.y < v0.y then (v2, v0) else (v0, v2)
  let (v1, v2) := if v2.y < v1.y then (v2, v1) else (v1, v2)
  fillFlatBottomTriangle fb v0 v1 v2 color

/-! Section: Renderer3D (src/Renderer3D.h)

`drawMesh(mesh, modelMatrix, camera, wireframe)` reads the two camera
matrices through its getters and then works per triangle; here the per-call
pipeline is parametrised directly by the view and projection matrices the
getters return.  The per-triangle body is split into named stages, each a
literal transcription of one block of the C++ loop body. -/

/-- Vertex processing: `clipV = mvp * Vec4(v.position, 1.0f)`. -/
def clipOf (mvp : Mat4) (v : Vertex) : Vec4 := mvp.mulVec4 (Vec4.ofPoint v.position)

/-- Perspective division: `ndcV = clipV.toVec3()`. -/
def ndcOf (mvp : Mat4) (v : Vertex) : Vec3 := (clipOf mvp v).toVec3

/-- Viewport transform: `screenX = (ndc.x+1)*0.5*width`,
`screenY = (1-ndc.y)*0.5*height` (Y flipped). -/
def screenOf (mvp : Mat4) (w h : ℤ) (v : Vertex) : Vec2 :=
  ⟨((ndcOf mvp v).x + 1) * (1 / 2) * (w : ℚ),
   (1 - (ndcOf mvp v).y) * (1 / 2) * (h : ℚ)⟩

/-- Backface-cull quantity: `cross = (screenV1-screenV0) × (screenV2-screenV0)`,
the signed area (×2) of the screen-space triangle; the code discards the
triangle when it is `≤ 0`. -/
def screenCross (mvp : Mat4) (w h : ℤ) (v0 v1 v2 : Vertex) : ℚ :=
  (screenOf mvp w h v1 - screenOf mvp w h v0).cross
    (screenOf mvp w h v2 - screenOf mvp w h v0)

/-- Models `Renderer3D::calculateTriangleNormal`: normalized cross of two edges. -/
def calculateTriangleNormal (sqrtF : ℚ → ℚ) (v0 v1 v2 : Vec3) : Vec3 :=
  Vec3.normalizedWith sqrtF ((v1 - v0).cross (v2 - v0))

/-- Lighting block of `drawMesh`: flat Lambertian shading of the averaged
vertex color (`uint8_t` casts of non-negative in-range floats are floors,
the `/ 3` average is integer division). -/
def shadeTriangle (sqrtF : ℚ → ℚ) (modelMatrix : Mat4) (v0 v1 v2 : Vertex) : Color :=
  let objectNormal := calculateTriangleNormal sqrtF v0.position v1.position v2.position
  let worldNormal := Vec3.normalizedWith sqrtF (modelMatrix.transformDirection objectNormal)
  let lightDir := Vec3.normalizedWith sqrtF ⟨3/10, 8/10, 5/10⟩
  let diffuse := max 0 (worldNormal.dot lightDir)
  let ambient : ℚ := 3/10
  let brightness := min 1 (max 0 (ambient + (1 - ambient) * diffuse))
  let baseR := (v0.color.r + v1.color.r + v2.color.r) / 3
  let baseG := (v0.color.g + v1.color.g + v2.color.g) / 3
  let baseB := (v0.color.b + v1.color.b + v2.color.b) / 3
  ⟨ratFloorNat ((baseR : ℚ) * brightness),
   ratFloorNat ((baseG : ℚ) * brightness),
   ratFloorNat ((baseB : ℚ) * brightness),
   255⟩

/-- Models `Renderer3D::drawTriangle3D`: screen-clamped bounding-box scan with
per-pixel barycentric weights (pixel centers at `+0.5`), the `|area| < 1e-4`
degenerate guard, and `setPixelDepth` as the write primitive. -/
def drawTriangle3D (fb : Framebuffer) (v0 v1 v2 : Vec2) (d0 d1 d2 : ℚ)
    (color : Color) : Framebuffer :=
  let minX := ratTrunc (max 0 (min (min v0.x v1.x) v2.x))
  let maxX := ratTrunc (min ((fb.width : ℚ) - 1) (max (max v0.x v1.x) v2.x))
  let minY := ratTrunc (max 0 (min (min v0.y v1.y) v2.y))
  let maxY := ratTrunc (min ((fb.height : ℚ) - 1) (max (max v0.y v1.y) v2.y))
  (intRange minY maxY).foldl (fun fbY (y : ℤ) =>
    (intRange minX maxX).foldl (fun fbX (x : ℤ) =>
      let p : Vec2 := ⟨(x : ℚ) + 1/2, (y : ℚ) + 1/2⟩
      let area := (v1 - v0).cross (v2 - v0)
      if |area| < 1/10000 then fbX
      else
        let w0 := ((v1 - p).cross (v2 - p)) / area
        let w1 := ((v2 - p).cross (v0 - p)) / area
        let w2 := ((v0 - p).cross (v1 - p)) / area
        if 0 ≤ w0 ∧ 0 ≤ w1 ∧ 0 ≤ w2 then
          (fbX.setPixelDepth x y (w0 * d0 + w1 * d1 + w2 * d2) color).1
        else fbX) fbY) fb

/-- Rasterization stage of the `drawMesh` loop body: wireframe draws the three
edges with `drawLine`, filled calls `drawTriangle3D` with the NDC depths. -/
def rasterizeTriangle (sqrtF : ℚ → ℚ) (mvp modelMatrix : Mat4) (wireframe : Bool)
    (v0 v1 v2 : Vertex) (fb : Framebuffer) : Framebuffer :=
  let litColor := shadeTriangle sqrtF modelMatrix v0 v1 v2
  let s0 := screenOf mvp fb.width fb.height v0
  let s1 := screenOf mvp fb.width fb.height v1
  let s2 := screenOf mvp fb.width fb.height v2
  if wireframe then
    drawLineV (drawLineV (drawLineV fb s0 s1 litColor) s1 s2 litColor) s2 s0 litColor
  else
    drawTriangle3D fb s0 s1 s2 (ndcOf mvp v0).z (ndcOf mvp v1).z (ndcOf mvp v2).z litColor

/-- One iteration of the `drawMesh` triangle loop: trivial clip reject when
all three clip-space `w` are `≤ 0`, then backface cull when the screen-space
cross product is `≤ 0`, then shade and rasterize. -/
def processTriangle (sqrtF : ℚ → ℚ) (mvp modelMatrix : Mat4) (wireframe : Bool)
    (v0 v1 v2 : Vertex) (fb : Framebuffer) : Framebuffer :=
  if (clipOf mvp v0).w ≤ 0 ∧ (clipOf mvp v1).w ≤ 0 ∧ (clipOf mvp v2).w ≤ 0 then fb
  else if screenCross mvp fb.width fb.height v0 v1 v2 ≤ 0 then fb
  else rasterizeTriangle sqrtF mvp modelMatrix wireframe v0 v1 v2 fb

/-- Models `Renderer3D::drawMesh`: `mvp = projection * view * modelMatrix`
(left-associated, as in C++), then every triangle of the mesh is processed in
order.  `viewMatrix` and `projectionMatrix` are the matrices the camera
getters return. -/
def drawMesh (sqrtF : ℚ → ℚ) (mesh : Mesh) (modelMatrix viewMatrix projectionMatrix : Mat4)
    (wireframe : Bool) (fb : Framebuffer) : Framebuffer :=
  let mvp := (projectionMatrix.mul viewMatrix).mul modelMatrix
  (List.range mesh.getTriangleCount).foldl (fun acc i =>
    let t := mesh.getTriangle i
    processTriangle sqrtF mvp modelMatrix wireframe t.1 t.2.1 t.2.2 acc) fb

/-! Section: Camera (src/Camera.h)

Camera state with lazily cached view/projection matrices and two dirty
flags.  Getters mutate the camera (they store the recomputed matrix), so they
are modelled as returning the matrix together with the updated camera.  The
float library functions the class uses (`std::sqrt` inside `normalized`,
`std::tan` inside `Mat4::perspective`, `std::atan2`/`std::asin` in the
constructor, and the `M_PI` constant) are passed as parameters. -/

/-- Camera state, from src/Camera.h. -/
structure Camera where
  position : Vec3
  target : Vec3
  up : Vec3
  yaw : ℚ
  pitch : ℚ
  fov : ℚ
  aspect : ℚ
  nearPlane : ℚ
  farPlane : ℚ
  viewMatrix : Mat4
  projectionMatrix : Mat4
  viewDirty : Bool
  projectionDirty : Bool

/-- The `Camera` constructor: stores the parameters (fov converted from
degrees), derives yaw/pitch from the eye→target direction, leaves both cached
matrices at their `Mat4()` identity default and both dirty flags `true`. -/
def Camera.init (sqrtF asinF : ℚ → ℚ) (atan2F : ℚ → ℚ → ℚ) (piQ : ℚ)
    (position target up : Vec3) (fovDegrees aspect near far : ℚ) : Camera :=
  let direction := Vec3.normalizedWith sqrtF (target - position)
  { position := position
    target := target
    up := up
    yaw := atan2F direction.x (-direction.z)
    pitch := asinF direction.y
    fov := fovDegrees * piQ / 180
    aspect := aspect
    nearPlane := near
    farPlane := far
    viewMatrix := Mat4.identity
    projectionMatrix := Mat4.identity
    viewDirty := true
    projectionDirty := true }

/-- Models `Camera::setPosition`: store and mark the view dirty. -/
def Camera.setPosition (c : Camera) (pos : Vec3) : Camera :=
  { c with position := pos, viewDirty := true }

/-- Models `Camera::setTarget`. -/
def Camera.setTarget (c : Camera) (tgt : Vec3) : Camera :=
  { c with target := tgt, viewDirty := true }

/-- Models `Camera::setUp`. -/
def Camera.setUp (c : Camera) (u : Vec3) : Camera :=
  { c with up := u, viewDirty := true }

/-- Models `Camera::setFOV(fovDegrees)`: converts to radians, marks projection dirty. -/
def Camera.setFOV (piQ : ℚ) (c : Camera) (fovDegrees : ℚ) : Camera :=
  { c with fov := fovDegrees * piQ / 180, projectionDirty := true }

/-- Models `Camera::setAspectRatio` (named `setAspect` here). -/
def Camera.setAspect (c : Camera) (aspectRatio : ℚ) : Camera :=
  { c with aspect := aspectRatio, projectionDirty := true }

/-- Models `Camera::setClipPlanes`. -/
def Camera.setClipPlanes (c : Camera) (near far : ℚ) : Camera :=
  { c with nearPlane := near, farPlane := far, projectionDirty := true }

/-- Models `Camera::getForward`: normalized eye→target direction. -/
def Camera.getForward (sqrtF : ℚ → ℚ) (c : Camera) : Vec3 :=
  Vec3.normalizedWith sqrtF (c.target - c.position)

/-- Models `Camera::getRight`: normalized `forward × up`. -/
def Camera.getRight (sqrtF : ℚ → ℚ) (c : Camera) : Vec3 :=
  Vec3.normalizedWith sqrtF ((c.getForward sqrtF).cross c.up)

/-- Models `Camera::moveForward`: translate position and target along the forward
direction, mark the view dirty. -/
def Camera.moveForward (sqrtF : ℚ → ℚ) (c : Camera) (distance : ℚ) : Camera :=
  let forward := c.getForward sqrtF
  { c with
      position := c.position + forward.scale distance
      target := c.target + forward.scale distance
      viewDirty := true }

/-- Models `Camera::moveRight`: strafe along the right direction. -/
def Camera.moveRight (sqrtF : ℚ → ℚ) (c : Camera) (distance : ℚ) : Camera :=
  let right := c.getRight sqrtF
  { c with
      position := c.position + right.scale distance
      target := c.target + right.scale distance
      viewDirty := true }

/-- Models `Camera::moveUp`: translate along the stored up vector. -/
def Camera.moveUp (c : Camera) (distance : ℚ) : Camera :=
  { c with
      position := c.position + c.up.scale distance
      target := c.target + c.up.scale distance
      viewDirty := true }

/-- Models `Camera::getViewMatrix`: recompute `Mat4::lookAt(position, target, up)`
and clear the flag when `viewDirty`, else return the cached matrix. -/
def Camera.getViewMatrix (sqrtF : ℚ → ℚ) (c : Camera) : Mat4 × Camera :=
  if c.viewDirty then
    let vm := Mat4.lookAt sqrtF c.position c.target c.up
    (vm, { c with viewMatrix := vm, viewDirty := false })
  else (c.viewMatrix, c)

/-- Models `Camera::getProjectionMatrix`: recompute
`Mat4::perspective(fov, aspect, nearPlane, farPlane)` and clear the flag when
`projectionDirty`, else return the cached matrix. -/
def Camera.getProjectionMatrix (tanF : ℚ → ℚ) (c : Camera) : Mat4 × Camera :=
  if c.projectionDirty then
    let pm := Mat4.perspective tanF c.fov c.aspect c.nearPlane c.farPlane
    (pm, { c with projectionMatrix := pm, projectionDirty := false })
  else (c.projectionMatrix, c)

/-- Models `Camera::worldToScreen(worldPos, screenWidth, screenHeight)`: a `const`
method that reads the cached `projectionMatrix` and `viewMatrix` fields
directly — it neither checks the dirty flags nor recomputes. -/
def Camera.worldToScreen (c : Camera) (worldPos : Vec3) (screenWidth screenHeight : ℤ) :
    Vec3 :=
  let vp := c.projectionMatrix.mul c.viewMatrix
  let clipSpace := vp.mulVec4 (Vec4.ofPoint worldPos)
  let ndc := clipSpace.toVec3
  ⟨(ndc.x + 1) * (1 / 2) * (screenWidth : ℚ),
   (1 - ndc.y) * (1 / 2) * (screenHeight : ℚ),
   ndc.z⟩

/-- A setter, movement or matrix-getter call on a `Camera`, for reasoning
about arbitrary interleavings within a frame. -/
inductive CamOp where
  | opSetPosition (p : Vec3)
  | opSetTarget (t : Vec3)
  | opSetUp (u : Vec3)
  | opSetFOV (fovDegrees : ℚ)
  | opSetAspect (a : ℚ)
  | opSetClipPlanes (near far : ℚ)
  | opMoveForward (d : ℚ)
  | opMoveRight (d : ℚ)
  | opMoveUp (d : ℚ)
  | opGetView
  | opGetProjection

/-- Apply one call to the camera (getters keep their state effect). -/
def applyOp (sqrtF tanF : ℚ → ℚ) (piQ : ℚ) (c : Camera) : CamOp → Camera
  | .opSetPosition p => c.setPosition p
  | .opSetTarget t => c.setTarget t
  | .opSetUp u => c.setUp u
  | .opSetFOV d => Camera.setFOV piQ c d
  | .opSetAspect a => c.setAspect a
  | .opSetClipPlanes near far => c.setClipPlanes near far
  | .opMoveForward d => Camera.moveForward sqrtF c d
  | .opMoveRight d => Camera.moveRight sqrtF c d
  | .opMoveUp d => c.moveUp d
  | .opGetView => (Camera.getViewMatrix sqrtF c).2
  | .opGetProjection => (Camera.getProjectionMatrix tanF c).2

/-- Run a sequence of camera calls. -/
def runOps (sqrtF tanF : ℚ → ℚ) (piQ : ℚ) (c : Camera) : List CamOp → Camera
  | [] => c
  | op :: rest => runOps sqrtF tanF piQ (applyOp sqrtF tanF piQ c op) rest

/-! Section: Concrete states and auxiliary predicates used by the theorems -/

/-- Exact square root on the values the C7 witness needs. -/
def sqrtFTest : ℚ → ℚ := fun q => if q = 25 then 5 else if q = 1 then 1 else 0
/-- Square root stand-in for the C8 demonstration (exact where the reachable
states need it, arbitrary elsewhere — the float value is irrelevant to the
caching behaviour being shown). -/
def sqrtDemo : ℚ → ℚ := fun q => if q = 25 then 5 else if q = 1 then 1 else if q = 125 then 11 else 0
/-- Tangent stand-in for the C8 demonstration. -/
def tanDemo : ℚ → ℚ := fun _ => 1
/-- A camera as `main.cpp` would build it (eye `(0,0,5)`, target origin,
fov 90°, aspect 1, near 0.1, far 100). -/
def camDemo0 : Camera :=
  Camera.init sqrtDemo (fun q => q) (fun a _ => a) 3 ⟨0, 0, 5⟩ ⟨0, 0, 0⟩ ⟨0, 1, 0⟩ 90 1 (1/10) 100
/-- State `camDemo0` after both matrix getters ran (caches filled, flags clear). -/
def camDemo1 : Camera :=
  ((camDemo0.getViewMatrix sqrtDemo).2.getProjectionMatrix tanDemo).2
/-- State `camDemo1` mutated by `setPosition` with no subsequent getter call. -/
def camDemo2 : Camera := camDemo1.setPosition ⟨10, 0, 5⟩
/-- In-bounds framebuffer state for the C2 witness: 4×4, all black, all
depths 100. -/
def fbTest : Framebuffer := ⟨4, 4, fun _ => Color.BLACK, fun _ => 100⟩
/-- A one-triangle mesh for the C1 witness. -/
def meshTest : Mesh :=
  ⟨[⟨⟨0, 0, 0⟩, ⟨0, 0, 1⟩, Color.WHITE⟩,
    ⟨⟨1, 0, 0⟩, ⟨0, 0, 1⟩, Color.WHITE⟩,
    ⟨⟨0, 1, 0⟩, ⟨0, 0, 1⟩, Color.WHITE⟩],
   [0, 1, 2]⟩
/-- Cache invariant of the lazy camera: a clear dirty flag means the cached
matrix equals the matrix of the current parameters. -/
def CameraConsistent (sqrtF tanF : ℚ → ℚ) (c : Camera) : Prop :=
  (c.viewDirty = false → c.viewMatrix = Mat4.lookAt sqrtF c.position c.target c.up) ∧
  (c.projectionDirty = false →
    c.projectionMatrix = Mat4.perspective tanF c.fov c.aspect c.nearPlane c.farPlane)
/-- Camera state reached for the C5 witness: construct, move the position,
then read the view matrix. -/
def camTestFinal : Camera :=
  runOps (fun _ => 0) (fun _ => 1) 3
    (Camera.init (fun _ => 0) (fun q => q) (fun a _ => a) 3
      ⟨0, 0, 5⟩ ⟨0, 0, 0⟩ ⟨0, 1, 0⟩ 60 (16/9) (1/10) 100)
    [CamOp.opSetPosition ⟨1, 2, 3⟩, CamOp.opGetView]

/-! Section: Theorems -/

/-- Unfolding rules for the componentwise vector instances. -/
@[simp] theorem vec2_add_def (a b : Vec2) : a + b = ⟨a.x + b.x, a.y + b.y⟩ := rfl
@[simp] theorem vec2_sub_def (a b : Vec2) : a - b = ⟨a.x - b.x, a.y - b.y⟩ := rfl
@[simp] theorem vec3_add_def (a b : Vec3) : a + b = ⟨a.x + b.x, a.y + b.y, a.z + b.z⟩ := rfl
@[simp] theorem vec3_sub_def (a b : Vec3) : a - b = ⟨a.x - b.x, a.y - b.y, a.z - b.z⟩ := rfl
@[simp] theorem vec3_neg_def (a : Vec3) : -a = ⟨-a.x, -a.y, -a.z⟩ := rfl


/-- C3: `Color::blend(Color(255,0,0,128), Color(0,0,0,255))` yields
approximately `(127,0,0,255)` — in the exact-rational model the red channel
is `128`, within one step of the claimed `127` (the float computation rounds
the same real value down to 127); in general every channel is
`fg_c * (fg.a/255) + bg_c * (1 - fg.a/255)` truncated to `uint8_t`, and the
result alpha is always exactly `255`. -/
theorem blend_alpha_over_spec :
    (Color.blend ⟨255, 0, 0, 128⟩ ⟨0, 0, 0, 255⟩ = ⟨128, 0, 0, 255⟩) ∧
    (127 ≤ (Color.blend ⟨255, 0, 0, 128⟩ ⟨0, 0, 0, 255⟩).r ∧
      (Color.blend ⟨255, 0, 0, 128⟩ ⟨0, 0, 0, 255⟩).r ≤ 128) ∧
    (∀ fg bg : Color,
      Color.blend fg bg =
        ⟨ratFloorNat ((fg.r : ℚ) * ((fg.a : ℚ) / 255) + (bg.r : ℚ) * (1 - (fg.a : ℚ) / 255)),
         ratFloorNat ((fg.g : ℚ) * ((fg.a : ℚ) / 255) + (bg.g : ℚ) * (1 - (fg.a : ℚ) / 255)),
         ratFloorNat ((fg.b : ℚ) * ((fg.a : ℚ) / 255) + (bg.b : ℚ) * (1 - (fg.a : ℚ) / 255)),
         255⟩) ∧
    (∀ fg bg : Color, (Color.blend fg bg).a = 255) := by
  refine ⟨?_, ?_, fun fg bg => rfl, fun fg bg => rfl⟩
  · simp only [Color.blend, Color.mk.injEq, ratFloorNat]
    norm_num
    rfl
  · simp only [Color.blend, ratFloorNat]
    norm_num

/-- C10: `Vec4::toVec3` is a total, division-guarded perspective divide:
`w = 0` returns `(x, y, z)` unchanged, `w ≠ 0` divides each coordinate by
`w`; consequently the perspective-division stage of the pipeline (`ndcOf`, the
`clipV.toVec3()` calls of `drawMesh`) leaves a `w = 0` clip-space vertex
undivided. -/
theorem toVec3_perspective_divide_guard :
    (∀ v : Vec4, v.w = 0 → v.toVec3 = ⟨v.x, v.y, v.z⟩) ∧
    (∀ v : Vec4, v.w ≠ 0 → v.toVec3 = ⟨v.x / v.w, v.y / v.w, v.z / v.w⟩) ∧
    (∀ (mvp : Mat4) (v : Vertex), (clipOf mvp v).w = 0 →
      ndcOf mvp v = ⟨(clipOf mvp v).x, (clipOf mvp v).y, (clipOf mvp v).z⟩) :=
  ⟨fun v h => by simp [Vec4.toVec3, h],
   fun v h => by simp [Vec4.toVec3, h],
   fun mvp v h => by simp [ndcOf, Vec4.toVec3, h]⟩

/-- C10 witness: the guard at `w = 0` and the divide at `w = 2`, on concrete
vectors. -/
theorem toVec3_perspective_divide_guard_witness :
    Vec4.toVec3 ⟨1, 2, 3, 0⟩ = ⟨1, 2, 3⟩ ∧ Vec4.toVec3 ⟨2, 4, 6, 2⟩ = ⟨1, 2, 3⟩ :=
  ⟨toVec3_perspective_divide_guard.1 ⟨1, 2, 3, 0⟩ rfl,
   by have h := toVec3_perspective_divide_guard.2.1 ⟨2, 4, 6, 2⟩ (by norm_num)
      rw [h]
      norm_num⟩

/-- C7: `Vec3::normalized` on the zero vector returns exactly `(0,0,0)` (the
`len == 0` guard, no error), and on any non-zero vector the result has length
1: its squared length is exactly 1, hence its length is `sqrt 1 = 1`.  The
float square root is the parameter `sqrtF`; the hypotheses state that it is
exact at the values the code feeds it. -/
theorem normalized_zero_safe (sqrtF : ℚ → ℚ) :
    (sqrtF 0 = 0 → Vec3.normalizedWith sqrtF ⟨0, 0, 0⟩ = ⟨0, 0, 0⟩) ∧
    (∀ v : Vec3, v ≠ ⟨0, 0, 0⟩ →
      sqrtF v.lengthSquared * sqrtF v.lengthSquared = v.lengthSquared →
      (Vec3.normalizedWith sqrtF v).lengthSquared = 1 ∧
      (sqrtF 1 = 1 → Vec3.lengthWith sqrtF (Vec3.normalizedWith sqrtF v) = 1)) := by
  constructor
  · intro h0
    simp [Vec3.normalizedWith, Vec3.lengthWith, Vec3.lengthSquared, h0]
  · intro v hv hs
    have hL : v.lengthSquared ≠ 0 := by
      intro hL0
      apply hv
      have h : v.x * v.x + v.y * v.y + v.z * v.z = 0 := hL0
      have hx : v.x = 0 := mul_self_eq_zero.mp (le_antisymm
        (by linarith [mul_self_nonneg v.y, mul_self_nonneg v.z]) (mul_self_nonneg v.x))
      have hy : v.y = 0 := mul_self_eq_zero.mp (le_antisymm
        (by linarith [mul_self_nonneg v.x, mul_self_nonneg v.z]) (mul_self_nonneg v.y))
      have hz : v.z = 0 := mul_self_eq_zero.mp (le_antisymm
        (by linarith [mul_self_nonneg v.x, mul_self_nonneg v.y]) (mul_self_nonneg v.z))
      cases v
      simp_all
    have hsne : sqrtF v.lengthSquared ≠ 0 := by
      intro h0
      exact hL (by rw [← hs, h0, mul_zero])
    have key : (Vec3.normalizedWith sqrtF v).lengthSquared = 1 := by
      simp only [Vec3.normalizedWith, Vec3.lengthWith]
      rw [if_neg hsne]
      show v.x / sqrtF v.lengthSquared * (v.x / sqrtF v.lengthSquared) +
          v.y / sqrtF v.lengthSquared * (v.y / sqrtF v.lengthSquared) +
          v.z / sqrtF v.lengthSquared * (v.z / sqrtF v.lengthSquared) = 1
      have hrw : v.x / sqrtF v.lengthSquared * (v.x / sqrtF v.lengthSquared) +
          v.y / sqrtF v.lengthSquared * (v.y / sqrtF v.lengthSquared) +
          v.z / sqrtF v.lengthSquared * (v.z / sqrtF v.lengthSquared) =
          (v.x * v.x + v.y * v.y + v.z * v.z) /
            (sqrtF v.lengthSquared * sqrtF v.lengthSquared) := by
        ring
      rw [hrw, hs]
      exact div_self hL
    refine ⟨key, fun h1 => ?_⟩
    show sqrtF (Vec3.normalizedWith sqrtF v).lengthSquared = 1
    rw [key, h1]

/-- C7 witness: the zero vector maps to the zero vector, and `(3,4,0)`
normalizes to a vector of (squared) length exactly 1. -/
theorem normalized_zero_safe_witness :
    Vec3.normalizedWith sqrtFTest ⟨0, 0, 0⟩ = ⟨0, 0, 0⟩ ∧
    (Vec3.normalizedWith sqrtFTest ⟨3, 4, 0⟩).lengthSquared = 1 ∧
    Vec3.lengthWith sqrtFTest (Vec3.normalizedWith sqrtFTest ⟨3, 4, 0⟩) = 1 :=
  ⟨(normalized_zero_safe sqrtFTest).1 (by norm_num [sqrtFTest]),
   ((normalized_zero_safe sqrtFTest).2 ⟨3, 4, 0⟩ (by simp [Vec3.mk.injEq])
     (by norm_num [sqrtFTest, Vec3.lengthSquared])).1,
   ((normalized_zero_safe sqrtFTest).2 ⟨3, 4, 0⟩ (by simp [Vec3.mk.injEq])
     (by norm_num [sqrtFTest, Vec3.lengthSquared])).2 (by norm_num [sqrtFTest])⟩

/-- C4: the inside test of the 2D rasterizer, `Renderer::isPointInTriangle` divides
`d02` and `d01` by the triangle area `d00` with no zero guard, so for the
degenerate (collinear) triangle `(0,0), (1,1), (2,2)` — reached by
`drawTriangle` for every pixel of its bounding box — the area is `0` and the
division by the zero area does happen (`none` marks the unguarded zero
denominator).  This contradicts the claim that the triangle is rejected
without performing a division by zero; the guarded comparison in
`Renderer3D::drawTriangle3D` shows the intended pattern. -/
theorem isPointInTriangle_divides_by_zero_area :
    Vec2.cross ((⟨1, 1⟩ : Vec2) - ⟨0, 0⟩) ((⟨2, 2⟩ : Vec2) - ⟨0, 0⟩) = 0 ∧
    isPointInTriangle ⟨1, 0⟩ ⟨0, 0⟩ ⟨1, 1⟩ ⟨2, 2⟩ = none := by
  constructor
  · norm_num [Vec2.cross]
  · norm_num [isPointInTriangle, divChecked, Vec2.cross]

/-- C8: `Camera::worldToScreen` reads the cached `viewMatrix` and
`projectionMatrix` fields directly, without checking or applying the dirty
flags: after any `setPosition` its result is unchanged even though the
position did change and the view was marked dirty; and on the concrete
reachable camera `camDemo2` (getters ran, then `setPosition`, no getter in
between) the result differs from what the refreshed matrices of the current
state would give. -/
theorem worldToScreen_stale_cache :
    (∀ (c : Camera) (p worldPos : Vec3) (w h : ℤ),
      (c.setPosition p).worldToScreen worldPos w h = c.worldToScreen worldPos w h ∧
      (c.setPosition p).position = p ∧ (c.setPosition p).viewDirty = true) ∧
    (camDemo2.worldToScreen ⟨0, 0, 0⟩ 8 6 = camDemo1.worldToScreen ⟨0, 0, 0⟩ 8 6 ∧
     camDemo2.worldToScreen ⟨0, 0, 0⟩ 8 6 ≠
       ((camDemo2.getViewMatrix sqrtDemo).2).worldToScreen ⟨0, 0, 0⟩ 8 6) := by
  refine ⟨fun c p worldPos w h => ⟨rfl, rfl, rfl⟩, rfl, ?_⟩
  have hrange : List.range 4 = [0, 1, 2, 3] := rfl
  have h1 : camDemo2.worldToScreen ⟨0, 0, 0⟩ 8 6 = ⟨4, 3, 961/999⟩ := by
    simp only [camDemo2, camDemo1, camDemo0, Camera.setPosition, Camera.getViewMatrix,
      Camera.getProjectionMatrix, Camera.init, Camera.worldToScreen, Mat4.lookAt,
      Mat4.perspective, Mat4.mul, Mat4.mulVec4, Mat4.identity, Vec4.ofPoint, Vec4.toVec3,
      Vec3.normalizedWith, Vec3.lengthWith, Vec3.lengthSquared, Vec3.cross, Vec3.dot,
      vec3_sub_def, sqrtDemo, tanDemo, hrange, List.foldl, if_true, if_false]
    norm_num
  have h2 : ((camDemo2.getViewMatrix sqrtDemo).2).worldToScreen ⟨0, 0, 0⟩ 8 6 =
      ⟨4, 3, 18029/18315⟩ := by
    simp only [camDemo2, camDemo1, camDemo0, Camera.setPosition, Camera.getViewMatrix,
      Camera.getProjectionMatrix, Camera.init, Camera.worldToScreen, Mat4.lookAt,
      Mat4.perspective, Mat4.mul, Mat4.mulVec4, Mat4.identity, Vec4.ofPoint, Vec4.toVec3,
      Vec3.normalizedWith, Vec3.lengthWith, Vec3.lengthSquared, Vec3.cross, Vec3.dot,
      vec3_sub_def, sqrtDemo, tanDemo, hrange, List.foldl, if_true, if_false]
    norm_num
  rw [h1, h2]
  simp only [ne_eq, Vec3.mk.injEq]
  norm_num

/-- Behaviour of `setPixelDepth` when the coordinates are in bounds and the depth test
passes: both buffers are updated at the linear index and `true` is returned. -/
theorem setPixelDepth_eq_pos (fb : Framebuffer) (x y : ℤ) (d : ℚ) (c : Color)
    (hb : 0 ≤ x ∧ x < fb.width ∧ 0 ≤ y ∧ y < fb.height)
    (hd : d < fb.depthBuffer (y * fb.width + x)) :
    fb.setPixelDepth x y d c =
      ({ fb with
          pixels := fun i => if i = y * fb.width + x then c else fb.pixels i,
          depthBuffer := fun i => if i = y * fb.width + x then d else fb.depthBuffer i },
       true) := by
  obtain ⟨hx0, hxw, hy0, hyh⟩ := hb
  have hoob : ¬(x < 0 ∨ fb.width ≤ x ∨ y < 0 ∨ fb.height ≤ y) := by
    push_neg
    exact ⟨not_lt.mp (by omega), by omega, by omega, by omega⟩
  simp only [Framebuffer.setPixelDepth, if_neg hoob, if_pos hd]

/-- Behaviour of `setPixelDepth` when out of bounds or the depth test fails: the
framebuffer is returned unchanged with `false`. -/
theorem setPixelDepth_eq_neg (fb : Framebuffer) (x y : ℤ) (d : ℚ) (c : Color)
    (h : ¬((0 ≤ x ∧ x < fb.width ∧ 0 ≤ y ∧ y < fb.height) ∧
           d < fb.depthBuffer (y * fb.width + x))) :
    fb.setPixelDepth x y d c = (fb, false) := by
  by_cases hb : 0 ≤ x ∧ x < fb.width ∧ 0 ≤ y ∧ y < fb.height
  · have hd : ¬ d < fb.depthBuffer (y * fb.width + x) := fun hd => h ⟨hb, hd⟩
    obtain ⟨hx0, hxw, hy0, hyh⟩ := hb
    have hoob : ¬(x < 0 ∨ fb.width ≤ x ∨ y < 0 ∨ fb.height ≤ y) := by
      push_neg
      exact ⟨by omega, by omega, by omega, by omega⟩
    simp only [Framebuffer.setPixelDepth, if_neg hoob, if_neg hd]
  · have hoob : x < 0 ∨ fb.width ≤ x ∨ y < 0 ∨ fb.height ≤ y := by
      by_contra hno
      push_neg at hno
      exact hb ⟨by omega, by omega, by omega, by omega⟩
    simp only [Framebuffer.setPixelDepth, if_pos hoob]

/-- C2: `Framebuffer::setPixelDepth(x,y,d,c)` writes color `c` and depth `d`
at pixel `(x,y)` if and only if `(x,y)` is in bounds and `d` is strictly
below the stored depth; in every other case (out of bounds, or `d ≥` stored,
ties included) both buffers are left completely unchanged and `false` is
returned instead of an error.  Consequently two calls at the same pixel with
decreasing depths leave the smaller depth and its color, and a call with a
larger-or-equal depth after a smaller one is a no-op. -/
theorem setPixelDepth_contract (fb : Framebuffer) (x y : ℤ) (d : ℚ) (c : Color) :
    ((0 ≤ x ∧ x < fb.width ∧ 0 ≤ y ∧ y < fb.height) →
      d < fb.depthBuffer (y * fb.width + x) →
      ((fb.setPixelDepth x y d c).1.pixels (y * fb.width + x) = c ∧
       (fb.setPixelDepth x y d c).1.depthBuffer (y * fb.width + x) = d ∧
       (fb.setPixelDepth x y d c).2 = true ∧
       ∀ j : ℤ, j ≠ y * fb.width + x →
         (fb.setPixelDepth x y d c).1.pixels j = fb.pixels j ∧
         (fb.setPixelDepth x y d c).1.depthBuffer j = fb.depthBuffer j)) ∧
    (¬((0 ≤ x ∧ x < fb.width ∧ 0 ≤ y ∧ y < fb.height) ∧
        d < fb.depthBuffer (y * fb.width + x)) →
      fb.setPixelDepth x y d c = (fb, false)) ∧
    (∀ (d2 : ℚ) (c2 : Color), (0 ≤ x ∧ x < fb.width ∧ 0 ≤ y ∧ y < fb.height) →
      d < fb.depthBuffer (y * fb.width + x) → d2 < d →
      (((fb.setPixelDepth x y d c).1.setPixelDepth x y d2 c2).1.depthBuffer
          (y * fb.width + x) = d2 ∧
       ((fb.setPixelDepth x y d c).1.setPixelDepth x y d2 c2).1.pixels
          (y * fb.width + x) = c2)) ∧
    (∀ (d2 : ℚ) (c2 : Color), (0 ≤ x ∧ x < fb.width ∧ 0 ≤ y ∧ y < fb.height) →
      d < fb.depthBuffer (y * fb.width + x) → d ≤ d2 →
      (fb.setPixelDepth x y d c).1.setPixelDepth x y d2 c2 =
        ((fb.setPixelDepth x y d c).1, false)) := by
  refine ⟨?_, setPixelDepth_eq_neg fb x y d c, ?_, ?_⟩
  · intro hb hd
    rw [setPixelDepth_eq_pos fb x y d c hb hd]
    refine ⟨by simp, by simp, rfl, fun j hj => ⟨by simp [hj], by simp [hj]⟩⟩
  · intro d2 c2 hb hd hd2
    rw [setPixelDepth_eq_pos fb x y d c hb hd]
    have hb1 : 0 ≤ x ∧
        x < ({ fb with
            pixels := fun i => if i = y * fb.width + x then c else fb.pixels i,
            depthBuffer := fun i =>
              if i = y * fb.width + x then d else fb.depthBuffer i } :
          Framebuffer).width ∧ 0 ≤ y ∧
        y < ({ fb with
            pixels := fun i => if i = y * fb.width + x then c else fb.pixels i,
            depthBuffer := fun i =>
              if i = y * fb.width + x then d else fb.depthBuffer i } :
          Framebuffer).height := hb
    rw [setPixelDepth_eq_pos _ x y d2 c2 hb1 (by simpa using hd2)]
    exact ⟨by simp, by simp⟩
  · intro d2 c2 hb hd hd2
    rw [setPixelDepth_eq_pos fb x y d c hb hd]
    refine setPixelDepth_eq_neg _ x y d2 c2 ?_
    rintro ⟨-, hlt⟩
    simp only [if_pos rfl] at hlt
    exact absurd hlt (not_lt.mpr hd2)

/-- C2 witness: at pixel `(1,2)` of `fbTest` (linear index 9), a passing
write stores the color and depth, a second smaller write overwrites them, and
a larger write after a smaller one is a no-op. -/
theorem setPixelDepth_contract_witness :
    ((fbTest.setPixelDepth 1 2 5 Color.WHITE).1.pixels 9 = Color.WHITE ∧
     (fbTest.setPixelDepth 1 2 5 Color.WHITE).1.depthBuffer 9 = 5) ∧
    (((fbTest.setPixelDepth 1 2 5 Color.WHITE).1.setPixelDepth 1 2 3 Color.BLACK).1.depthBuffer 9 = 3) ∧
    ((fbTest.setPixelDepth 1 2 5 Color.WHITE).1.setPixelDepth 1 2 7 Color.BLACK =
      ((fbTest.setPixelDepth 1 2 5 Color.WHITE).1, false)) := by
  have hb : 0 ≤ (1 : ℤ) ∧ (1 : ℤ) < fbTest.width ∧ 0 ≤ (2 : ℤ) ∧ (2 : ℤ) < fbTest.height := by
    refine ⟨by norm_num, ?_, by norm_num, ?_⟩ <;> norm_num [fbTest]
  have hd : (5 : ℚ) < fbTest.depthBuffer (2 * fbTest.width + 1) := by norm_num [fbTest]
  have h := setPixelDepth_contract fbTest 1 2 5 Color.WHITE
  have h9 : (2 : ℤ) * fbTest.width + 1 = 9 := by norm_num [fbTest]
  refine ⟨⟨?_, ?_⟩, ?_, ?_⟩
  · have := (h.1 hb hd).1
    rwa [h9] at this
  · have := (h.1 hb hd).2.1
    rwa [h9] at this
  · have := (h.2.2.1 3 Color.BLACK hb hd (by norm_num)).1
    rwa [h9] at this
  · exact h.2.2.2 7 Color.BLACK hb hd (by norm_num)

/-- Helper fact: `flipWindingTriples` keeps the number of indices. -/
theorem flipWindingTriples_length (n : ℕ) :
    ∀ l : List ℕ, (flipWindingTriples n l).length = l.length
  | [] => rfl
  | [_] => rfl
  | [_, _] => rfl
  | _ :: _ :: _ :: rest => by
      simp only [flipWindingTriples, List.length_cons]
      rw [flipWindingTriples_length n rest]

/-- Values of `flipWindingTriples` on the `t`-th complete triple: first index
offset in place, last two offset and swapped. -/
theorem flipWindingTriples_getD (n : ℕ) :
    ∀ (l : List ℕ) (t : ℕ), 3 * t + 2 < l.length →
      (flipWindingTriples n l).getD (3 * t) 0 = l.getD (3 * t) 0 + n ∧
      (flipWindingTriples n l).getD (3 * t + 1) 0 = l.getD (3 * t + 2) 0 + n ∧
      (flipWindingTriples n l).getD (3 * t + 2) 0 = l.getD (3 * t + 1) 0 + n
  | [], _, h => by
      simp only [List.length_nil] at h
      omega
  | [_], _, h => by
      simp only [List.length_cons, List.length_nil] at h
      omega
  | [_, _], _, h => by
      simp only [List.length_cons, List.length_nil] at h
      omega
  | a :: b :: c :: rest, 0, _ => ⟨rfl, rfl, rfl⟩
  | a :: b :: c :: rest, t + 1, h => by
      have hlen : 3 * t + 2 < rest.length := by
        simp only [List.length_cons] at h
        omega
      have ih := flipWindingTriples_getD n rest t hlen
      have e0 : 3 * (t + 1) = 3 * t + 1 + 1 + 1 := by ring
      have e1 : 3 * (t + 1) + 1 = 3 * t + 1 + 1 + 1 + 1 := by ring
      have e2 : 3 * (t + 1) + 2 = 3 * t + 2 + 1 + 1 + 1 := by ring
      refine ⟨?_, ?_, ?_⟩
      · rw [e0]
        simp only [flipWindingTriples, List.getD_cons_succ]
        exact ih.1
      · rw [e1, e2]
        simp only [flipWindingTriples, List.getD_cons_succ]
        exact ih.2.1
      · rw [e2, e1]
        simp only [flipWindingTriples, List.getD_cons_succ]
        exact ih.2.2

/-- C1: `Mesh::makeDoubleSided` on an N-vertex, M-index mesh (modelled from
the spec, see `Mesh.makeDoubleSided`) yields exactly 2N vertices and 2M
indices; the first halves are the originals unchanged, the second-half
vertices are the originals with inverted normals, and the second-half
`t`-th index triple is the original `t`-th triple offset by N with its last
two indices swapped (reversed winding). -/
theorem makeDoubleSided_spec (m : Mesh) :
    (m.makeDoubleSided.vertices.length = 2 * m.vertices.length) ∧
    (m.makeDoubleSided.indices.length = 2 * m.indices.length) ∧
    (∀ i, i < m.vertices.length →
      m.makeDoubleSided.vertices.getD i Vertex.defaultVertex =
        m.vertices.getD i Vertex.defaultVertex) ∧
    (∀ i, i < m.vertices.length →
      m.makeDoubleSided.vertices.getD (m.vertices.length + i) Vertex.defaultVertex =
        { m.vertices.getD i Vertex.defaultVertex with
            normal := -(m.vertices.getD i Vertex.defaultVertex).normal }) ∧
    (∀ i, i < m.indices.length →
      m.makeDoubleSided.indices.getD i 0 = m.indices.getD i 0) ∧
    (∀ t, 3 * t + 2 < m.indices.length →
      (m.makeDoubleSided.indices.getD (m.indices.length + 3 * t) 0 =
         m.indices.getD (3 * t) 0 + m.vertices.length ∧
       m.makeDoubleSided.indices.getD (m.indices.length + (3 * t + 1)) 0 =
         m.indices.getD (3 * t + 2) 0 + m.vertices.length ∧
       m.makeDoubleSided.indices.getD (m.indices.length + (3 * t + 2)) 0 =
         m.indices.getD (3 * t + 1) 0 + m.vertices.length)) := by
  refine ⟨?_, ?_, ?_, ?_, ?_, ?_⟩
  · simp only [Mesh.makeDoubleSided, List.length_append, List.length_map]
    omega
  · simp only [Mesh.makeDoubleSided, List.length_append, flipWindingTriples_length]
    omega
  · intro i hi
    simp only [Mesh.makeDoubleSided]
    exact List.getD_append _ _ _ _ hi
  · intro i hi
    simp only [Mesh.makeDoubleSided]
    rw [List.getD_append_right _ _ _ _ (Nat.le_add_right _ _), Nat.add_sub_cancel_left]
    have hmap : i < (m.vertices.map fun v => { v with normal := -v.normal }).length := by
      simpa using hi
    rw [List.getD_eq_getElem _ _ hmap, List.getElem_map, ← List.getD_eq_getElem _ _ hi]
  · intro i hi
    simp only [Mesh.makeDoubleSided]
    exact List.getD_append _ _ _ _ hi
  · intro t ht
    have h := flipWindingTriples_getD m.vertices.length m.indices t ht
    simp only [Mesh.makeDoubleSided]
    refine ⟨?_, ?_, ?_⟩
    · rw [List.getD_append_right _ _ _ _ (Nat.le_add_right _ _), Nat.add_sub_cancel_left]
      exact h.1
    · rw [List.getD_append_right _ _ _ _ (Nat.le_add_right _ _), Nat.add_sub_cancel_left]
      exact h.2.1
    · rw [List.getD_append_right _ _ _ _ (Nat.le_add_right _ _), Nat.add_sub_cancel_left]
      exact h.2.2

/-- C1 witness: doubling the one-triangle `meshTest` gives 6 vertices and 6
indices, vertex 3 is vertex 0 with inverted normal, and the second index
triple is `(3, 5, 4)` — offset by 3, last two swapped. -/
theorem makeDoubleSided_spec_witness :
    meshTest.makeDoubleSided.vertices.length = 6 ∧
    meshTest.makeDoubleSided.vertices.getD 3 Vertex.defaultVertex =
      ⟨⟨0, 0, 0⟩, ⟨0, 0, -1⟩, Color.WHITE⟩ ∧
    meshTest.makeDoubleSided.indices.getD 3 0 = 3 ∧
    meshTest.makeDoubleSided.indices.getD 4 0 = 5 ∧
    meshTest.makeDoubleSided.indices.getD 5 0 = 4 := by
  have h := makeDoubleSided_spec meshTest
  refine ⟨h.1, ?_, ?_, ?_, ?_⟩
  · have := h.2.2.2.1 0 (by norm_num [meshTest])
    simpa [meshTest, vec3_neg_def] using this
  · have := (h.2.2.2.2.2 0 (by norm_num [meshTest])).1
    simpa [meshTest] using this
  · have := (h.2.2.2.2.2 0 (by norm_num [meshTest])).2.1
    simpa [meshTest] using this
  · have := (h.2.2.2.2.2 0 (by norm_num [meshTest])).2.2
    simpa [meshTest] using this

/-- Writing through `setPixel` never touches the depth buffer. -/
theorem setPixel_depthBuffer (fb : Framebuffer) (x y : ℤ) (c : Color) :
    (fb.setPixel x y c).depthBuffer = fb.depthBuffer := by
  unfold Framebuffer.setPixel
  split <;> rfl

/-- The Bresenham loop writes only through `setPixel`, so the depth buffer is
untouched for any fuel. -/
theorem drawLineAux_depthBuffer (color : Color) (x1 y1 sx sy dx dy : ℤ) :
    ∀ (fuel : ℕ) (x0 y0 err : ℤ) (fb : Framebuffer),
      (drawLineAux color x1 y1 sx sy dx dy fuel x0 y0 err fb).depthBuffer = fb.depthBuffer
  | 0, _, _, _, _ => rfl
  | fuel + 1, x0, y0, err, fb => by
      simp only [drawLineAux]
      split
      · exact setPixel_depthBuffer fb x0 y0 color
      · rw [drawLineAux_depthBuffer color x1 y1 sx sy dx dy fuel]
        exact setPixel_depthBuffer fb x0 y0 color

/-- Writing through `drawLine` never touches the depth buffer. -/
theorem drawLine_depthBuffer (fb : Framebuffer) (x0 y0 x1 y1 : ℤ) (color : Color) :
    (drawLine fb x0 y0 x1 y1 color).depthBuffer = fb.depthBuffer :=
  drawLineAux_depthBuffer color x1 y1 _ _ _ _ _ x0 y0 _ fb

/-- Writing through `drawLine` on `Vec2` endpoints never touches the depth buffer. -/
theorem drawLineV_depthBuffer (fb : Framebuffer) (p0 p1 : Vec2) (color : Color) :
    (drawLineV fb p0 p1 color).depthBuffer = fb.depthBuffer :=
  drawLine_depthBuffer fb _ _ _ _ color

/-- The wireframe branch of the per-triangle body only draws lines, so the
depth buffer is untouched. -/
theorem processTriangle_wireframe_depthBuffer (sqrtF : ℚ → ℚ) (mvp modelMatrix : Mat4)
    (v0 v1 v2 : Vertex) (fb : Framebuffer) :
    (processTriangle sqrtF mvp modelMatrix true v0 v1 v2 fb).depthBuffer = fb.depthBuffer := by
  unfold processTriangle
  split
  · rfl
  · split
    · rfl
    · unfold rasterizeTriangle
      simp only [if_pos]
      rw [drawLineV_depthBuffer, drawLineV_depthBuffer, drawLineV_depthBuffer]

/-- C9: `drawMesh` with `wireframe = true` never modifies the depth buffer:
for every mesh, model matrix and camera matrices, every depth value after the
call equals its value before (the wireframe path draws triangle edges through
`drawLine`, which writes through `setPixel`, color only). -/
theorem drawMesh_wireframe_preserves_depth (sqrtF : ℚ → ℚ) (mesh : Mesh)
    (modelMatrix viewMatrix projectionMatrix : Mat4) (fb : Framebuffer) :
    (drawMesh sqrtF mesh modelMatrix viewMatrix projectionMatrix true fb).depthBuffer =
      fb.depthBuffer := by
  unfold drawMesh
  generalize List.range mesh.getTriangleCount = l
  induction l generalizing fb with
  | nil => rfl
  | cons i rest ih =>
      simp only [List.foldl_cons]
      rw [ih]
      exact processTriangle_wireframe_depthBuffer sqrtF _ modelMatrix _ _ _ fb

/-- C6: in the filled (non-wireframe) path of the per-triangle body of `drawMesh`,
a triangle whose projected screen-space vertices wind clockwise
(`screenCross ≤ 0`) is discarded with zero pixels written (the framebuffer is
returned unchanged); reordering the same three vertices counter-clockwise
(positive cross) makes the cull test false, and swapping the last two
vertices exactly negates the cross product. -/
theorem backface_cull_spec (sqrtF : ℚ → ℚ) (mvp modelMatrix : Mat4)
    (v0 v1 v2 : Vertex) (fb : Framebuffer) :
    (screenCross mvp fb.width fb.height v0 v1 v2 ≤ 0 →
      processTriangle sqrtF mvp modelMatrix false v0 v1 v2 fb = fb) ∧
    (0 < screenCross mvp fb.width fb.height v0 v1 v2 →
      ¬ screenCross mvp fb.width fb.height v0 v1 v2 ≤ 0) ∧
    (screenCross mvp fb.width fb.height v0 v2 v1 =
      -screenCross mvp fb.width fb.height v0 v1 v2) ∧
    (∀ viewMatrix projectionMatrix : Mat4,
      screenCross ((projectionMatrix.mul viewMatrix).mul modelMatrix)
          fb.width fb.height v0 v1 v2 ≤ 0 →
      drawMesh sqrtF ⟨[v0, v1, v2], [0, 1, 2]⟩ modelMatrix viewMatrix projectionMatrix
        false fb = fb) := by
  have hdiscard : ∀ mvp : Mat4, screenCross mvp fb.width fb.height v0 v1 v2 ≤ 0 →
      processTriangle sqrtF mvp modelMatrix false v0 v1 v2 fb = fb := by
    intro mvp hcull
    unfold processTriangle
    by_cases hclip : (clipOf mvp v0).w ≤ 0 ∧ (clipOf mvp v1).w ≤ 0 ∧ (clipOf mvp v2).w ≤ 0
    · rw [if_pos hclip]
    · rw [if_neg hclip, if_pos hcull]
  refine ⟨hdiscard mvp, fun hp => not_le.mpr hp, ?_, fun vM pM hc => ?_⟩
  case refine_2 =>
    have h := hdiscard ((pM.mul vM).mul modelMatrix) hc
    unfold drawMesh Mesh.getTriangleCount Mesh.getTriangle
    norm_num [show List.range 1 = [0] from rfl, List.foldl_cons, List.foldl_nil]
    exact h
  simp only [screenCross, Vec2.cross, vec2_sub_def]
  ring

/-- C6 witness: with identity matrices on the 4×4 `fbTest`, the triangle with
screen corners `(2,2), (2,3), (3,2)` winds clockwise (cross = −1): the filled
path leaves the framebuffer untouched; the reordering `(2,2), (3,2), (2,3)`
has cross = +1 and is not discarded by the cull test. -/
theorem backface_cull_spec_witness :
    processTriangle (fun q => q) Mat4.identity Mat4.identity false
      ⟨⟨0, 0, 0⟩, ⟨0, 0, 1⟩, Color.WHITE⟩
      ⟨⟨0, -1/2, 0⟩, ⟨0, 0, 1⟩, Color.WHITE⟩
      ⟨⟨1/2, 0, 0⟩, ⟨0, 0, 1⟩, Color.WHITE⟩ fbTest = fbTest ∧
    ¬ screenCross Mat4.identity fbTest.width fbTest.height
        ⟨⟨0, 0, 0⟩, ⟨0, 0, 1⟩, Color.WHITE⟩
        ⟨⟨1/2, 0, 0⟩, ⟨0, 0, 1⟩, Color.WHITE⟩
        ⟨⟨0, -1/2, 0⟩, ⟨0, 0, 1⟩, Color.WHITE⟩ ≤ 0 := by
  constructor
  · refine (backface_cull_spec (fun q => q) Mat4.identity Mat4.identity _ _ _ fbTest).1 ?_
    norm_num [screenCross, screenOf, ndcOf, clipOf, Mat4.identity, Mat4.mulVec4,
      Vec4.ofPoint, Vec4.toVec3, Vec2.cross, fbTest]
  · refine (backface_cull_spec (fun q => q) Mat4.identity Mat4.identity _ _ _ fbTest).2.1 ?_
    norm_num [screenCross, screenOf, ndcOf, clipOf, Mat4.identity, Mat4.mulVec4,
      Vec4.ofPoint, Vec4.toVec3, Vec2.cross, fbTest]

/-- The constructor starts with both flags dirty, so it is trivially
consistent. -/
theorem consistent_init (sqrtF tanF asinF : ℚ → ℚ) (atan2F : ℚ → ℚ → ℚ) (piQ : ℚ)
    (pos tgt upv : Vec3) (fovD asp nr fr : ℚ) :
    CameraConsistent sqrtF tanF (Camera.init sqrtF asinF atan2F piQ pos tgt upv fovD asp nr fr) := by
  constructor <;> intro h <;> simp [Camera.init] at h

/-- Every camera call preserves the cache invariant: mutators set the
matching dirty flag, getters refill the cache they clear. -/
theorem applyOp_consistent (sqrtF tanF : ℚ → ℚ) (piQ : ℚ) (c : Camera) (op : CamOp)
    (h : CameraConsistent sqrtF tanF c) :
    CameraConsistent sqrtF tanF (applyOp sqrtF tanF piQ c op) := by
  obtain ⟨hv, hp⟩ := h
  cases op with
  | opSetPosition p => exact ⟨fun hf => absurd hf (by simp [applyOp, Camera.setPosition]), hp⟩
  | opSetTarget t => exact ⟨fun hf => absurd hf (by simp [applyOp, Camera.setTarget]), hp⟩
  | opSetUp u => exact ⟨fun hf => absurd hf (by simp [applyOp, Camera.setUp]), hp⟩
  | opSetFOV d => exact ⟨hv, fun hf => absurd hf (by simp [applyOp, Camera.setFOV])⟩
  | opSetAspect a => exact ⟨hv, fun hf => absurd hf (by simp [applyOp, Camera.setAspect])⟩
  | opSetClipPlanes near far =>
      exact ⟨hv, fun hf => absurd hf (by simp [applyOp, Camera.setClipPlanes])⟩
  | opMoveForward d => exact ⟨fun hf => absurd hf (by simp [applyOp, Camera.moveForward]), hp⟩
  | opMoveRight d => exact ⟨fun hf => absurd hf (by simp [applyOp, Camera.moveRight]), hp⟩
  | opMoveUp d => exact ⟨fun hf => absurd hf (by simp [applyOp, Camera.moveUp]), hp⟩
  | opGetView =>
      simp only [applyOp, Camera.getViewMatrix]
      split
      · exact ⟨fun _ => rfl, hp⟩
      · exact ⟨hv, hp⟩
  | opGetProjection =>
      simp only [applyOp, Camera.getProjectionMatrix]
      split
      · exact ⟨hv, fun _ => rfl⟩
      · exact ⟨hv, hp⟩

/-- Running any call sequence preserves the cache invariant. -/
theorem runOps_consistent (sqrtF tanF : ℚ → ℚ) (piQ : ℚ) :
    ∀ (ops : List CamOp) (c : Camera), CameraConsistent sqrtF tanF c →
      CameraConsistent sqrtF tanF (runOps sqrtF tanF piQ c ops)
  | [], _, h => h
  | op :: rest, c, h =>
      runOps_consistent sqrtF tanF piQ rest _ (applyOp_consistent sqrtF tanF piQ c op h)

/-- Under the cache invariant, `getViewMatrix` returns `lookAt` of the
current state, leaves the flag clear, and is a pure cache read when the flag
was already clear. -/
theorem getViewMatrix_spec (sqrtF tanF : ℚ → ℚ) (c : Camera)
    (h : CameraConsistent sqrtF tanF c) :
    (c.getViewMatrix sqrtF).1 = Mat4.lookAt sqrtF c.position c.target c.up ∧
    (c.getViewMatrix sqrtF).2.viewDirty = false ∧
    (c.viewDirty = false → c.getViewMatrix sqrtF = (c.viewMatrix, c)) := by
  unfold Camera.getViewMatrix
  by_cases hd : c.viewDirty
  · rw [if_pos hd]
    exact ⟨rfl, rfl, fun hf => absurd hf (by simp [hd])⟩
  · have hf : c.viewDirty = false := by
      revert hd
      cases c.viewDirty <;> simp
    rw [if_neg hd]
    exact ⟨h.1 hf, hf, fun _ => rfl⟩

/-- Projection analogue of `getViewMatrix_spec`. -/
theorem getProjectionMatrix_spec (sqrtF tanF : ℚ → ℚ) (c : Camera)
    (h : CameraConsistent sqrtF tanF c) :
    (c.getProjectionMatrix tanF).1 =
      Mat4.perspective tanF c.fov c.aspect c.nearPlane c.farPlane ∧
    (c.getProjectionMatrix tanF).2.projectionDirty = false ∧
    (c.projectionDirty = false → c.getProjectionMatrix tanF = (c.projectionMatrix, c)) := by
  unfold Camera.getProjectionMatrix
  by_cases hd : c.projectionDirty
  · rw [if_pos hd]
    exact ⟨rfl, rfl, fun hf => absurd hf (by simp [hd])⟩
  · have hf : c.projectionDirty = false := by
      revert hd
      cases c.projectionDirty <;> simp
    rw [if_neg hd]
    exact ⟨h.2 hf, hf, fun _ => rfl⟩

/-- C5: over every sequence of setter/movement calls interleaved arbitrarily
with getter calls from the constructor state, `getViewMatrix` returns
`lookAt(position, target, up)` of the current state and `getProjectionMatrix`
returns `perspective(fov, aspect, nearPlane, farPlane)` of the current state
(read-after-write consistency); each getter clears its flag and is a pure
cache read when its flag is already clear (recompute iff dirty); and every
position/target/up mutation sets `viewDirty` (leaving `projectionDirty`
alone) while every fov/aspect/clip-plane mutation sets `projectionDirty`
(leaving `viewDirty` alone). -/
theorem camera_lazy_cache (sqrtF tanF asinF : ℚ → ℚ) (atan2F : ℚ → ℚ → ℚ) (piQ : ℚ)
    (pos tgt upv : Vec3) (fovD asp nr fr : ℚ) (ops : List CamOp) :
    (∀ c : Camera,
      c = runOps sqrtF tanF piQ
            (Camera.init sqrtF asinF atan2F piQ pos tgt upv fovD asp nr fr) ops →
      ((c.getViewMatrix sqrtF).1 = Mat4.lookAt sqrtF c.position c.target c.up ∧
       (c.getViewMatrix sqrtF).2.viewDirty = false ∧
       (c.viewDirty = false → c.getViewMatrix sqrtF = (c.viewMatrix, c)) ∧
       ((c.getProjectionMatrix tanF).1 =
          Mat4.perspective tanF c.fov c.aspect c.nearPlane c.farPlane ∧
        (c.getProjectionMatrix tanF).2.projectionDirty = false ∧
        (c.projectionDirty = false →
          c.getProjectionMatrix tanF = (c.projectionMatrix, c))))) ∧
    (∀ (c : Camera) (p : Vec3), (c.setPosition p).viewDirty = true ∧
      (c.setPosition p).projectionDirty = c.projectionDirty) ∧
    (∀ (c : Camera) (t : Vec3), (c.setTarget t).viewDirty = true ∧
      (c.setTarget t).projectionDirty = c.projectionDirty) ∧
    (∀ (c : Camera) (u : Vec3), (c.setUp u).viewDirty = true ∧
      (c.setUp u).projectionDirty = c.projectionDirty) ∧
    (∀ (c : Camera) (d : ℚ), (Camera.moveForward sqrtF c d).viewDirty = true ∧
      (Camera.moveForward sqrtF c d).projectionDirty = c.projectionDirty) ∧
    (∀ (c : Camera) (d : ℚ), (Camera.moveRight sqrtF c d).viewDirty = true ∧
      (Camera.moveRight sqrtF c d).projectionDirty = c.projectionDirty) ∧
    (∀ (c : Camera) (d : ℚ), (c.moveUp d).viewDirty = true ∧
      (c.moveUp d).projectionDirty = c.projectionDirty) ∧
    (∀ (c : Camera) (d : ℚ), (Camera.setFOV piQ c d).projectionDirty = true ∧
      (Camera.setFOV piQ c d).viewDirty = c.viewDirty) ∧
    (∀ (c : Camera) (a : ℚ), (c.setAspect a).projectionDirty = true ∧
      (c.setAspect a).viewDirty = c.viewDirty) ∧
    (∀ (c : Camera) (near far : ℚ), (c.setClipPlanes near far).projectionDirty = true ∧
      (c.setClipPlanes near far).viewDirty = c.viewDirty) := by
  refine ⟨?_, fun c p => ⟨rfl, rfl⟩, fun c t => ⟨rfl, rfl⟩, fun c u => ⟨rfl, rfl⟩,
    fun c d => ⟨rfl, rfl⟩, fun c d => ⟨rfl, rfl⟩, fun c d => ⟨rfl, rfl⟩,
    fun c d => ⟨rfl, rfl⟩, fun c a => ⟨rfl, rfl⟩, fun c near far => ⟨rfl, rfl⟩⟩
  intro c hc
  have hcons : CameraConsistent sqrtF tanF c := by
    rw [hc]
    exact runOps_consistent sqrtF tanF piQ ops _
      (consistent_init sqrtF tanF asinF atan2F piQ pos tgt upv fovD asp nr fr)
  obtain ⟨hv1, hv2, hv3⟩ := getViewMatrix_spec sqrtF tanF c hcons
  obtain ⟨hp1, hp2, hp3⟩ := getProjectionMatrix_spec sqrtF tanF c hcons
  exact ⟨hv1, hv2, hv3, hp1, hp2, hp3⟩

/-- C5 witness: on the concrete reachable camera `camTestFinal` the view
getter returns `lookAt` of the current state, and — its flag being clear
after the `opGetView` — a second read is a pure cache read. -/
theorem camera_lazy_cache_witness :
    (camTestFinal.getViewMatrix (fun _ => 0)).1 =
      Mat4.lookAt (fun _ => 0) camTestFinal.position camTestFinal.target camTestFinal.up ∧
    camTestFinal.getViewMatrix (fun _ => 0) = (camTestFinal.viewMatrix, camTestFinal) := by
  have h := (camera_lazy_cache (fun _ => 0) (fun _ => 1) (fun q => q) (fun a _ => a) 3
      ⟨0, 0, 5⟩ ⟨0, 0, 0⟩ ⟨0, 1, 0⟩ 60 (16/9) (1/10) 100
      [CamOp.opSetPosition ⟨1, 2, 3⟩, CamOp.opGetView]).1 camTestFinal rfl
  exact ⟨h.1, h.2.2.1 rfl⟩

end RenderingEngine
